import Mathlib

/-!
Verification of the categorization/validation pipeline of the
`webscraper-ai-python` repository.

The Python sources are shallowly embedded:

* `src/validators.py`   → namespace `URLValidator`
* `src/categorizer.py`  → namespace `ContentCategorizer`
* `src/content_processor.py` → namespace `ContentProcessor`
* `src/metadata_extractor.py` → namespace `MetadataExtractor`
* `src/models.py`       → namespace `Models`

Python strings are embedded as Lean `String` (sequences of unicode code
points, which matches Python's `len`/slicing semantics); the handful of
`str` methods used by the sources (`strip`, `lower`, `split`, `join`,
`endswith`) are re-implemented below with Python's behaviour on the
ASCII inputs the pipeline handles.  The two regular expressions that are
not plain literals (`URLValidator.url_pattern` and the `\.exe$`-style
suffix patterns) are embedded, respectively, as a Brzozowski-derivative
matcher applied to a faithful transcription of the pattern, and as
suffix tests.  `urllib.parse.urlparse` is embedded (for the `http`/
`https` URLs in scope) following CPython's `urlsplit`: scheme split at
the first `:` when the prefix is made of scheme characters, `//`-netloc
up to the first `/?#`, the `Invalid IPv6 URL` error for unbalanced
brackets in the netloc, then fragment and query splits.
-/

namespace Py

/-- Python's `str.isspace`/`\s` whitespace set, restricted to ASCII
(the inputs in scope contain no unicode whitespace). -/
def isSpaceChar (c : Char) : Bool :=
  c = ' ' || c = '\t' || c = '\n' || c = '\r' || c = '\x0b' || c = '\x0c'

/-- Python `str.strip()` on a list of characters. -/
def stripList (l : List Char) : List Char :=
  ((l.dropWhile isSpaceChar).reverse.dropWhile isSpaceChar).reverse

/-- Python `str.strip()`. -/
def strip (s : String) : String := String.mk (stripList s.data)

/-- Python `str.isspace()`: nonempty and all whitespace. -/
def isSpaceStr (l : List Char) : Bool :=
  !l.isEmpty && l.all isSpaceChar

/-- ASCII lower-casing of one character (Python `str.lower` on the
ASCII inputs in scope). -/
def lowerChar (c : Char) : Char :=
  if 'A' ≤ c ∧ c ≤ 'Z' then Char.ofNat (c.toNat + 32) else c

/-- Python `str.lower()`. -/
def lower (s : String) : String := String.mk (s.data.map lowerChar)

/-- `re.search` of a literal pattern: does `pat` occur as a contiguous
substring? -/
def isSubstr (pat : List Char) : List Char → Bool
  | [] => pat.isEmpty
  | c :: rest => pat.isPrefixOf (c :: rest) || isSubstr pat rest

/-- String-level `re.search` of a literal pattern. -/
def containsSub (pat s : String) : Bool := isSubstr pat.data s.data

/-- Scan for non-overlapping occurrences of a nonempty literal
pattern; `fuel` bounds the number of scan steps (each step consumes at
least one character, so `s.length` steps suffice) and makes the
recursion structural. -/
def countOccAux (pat : List Char) : Nat → List Char → Nat
  | _, [] => 0
  | 0, _ :: _ => 0
  | fuel + 1, c :: rest =>
    if pat.isPrefixOf (c :: rest) then
      1 + countOccAux pat fuel ((c :: rest).drop pat.length)
    else
      countOccAux pat fuel rest

/-- `len(re.findall(pat, s))` for a literal pattern `pat`:
the number of non-overlapping occurrences, scanning left to right. -/
def countOcc (pat : List Char) (s : List Char) : Nat :=
  if pat = [] then s.length + 1 else countOccAux pat s.length s

/-- Python `s.split(sep)` for a one-character separator: keeps empty
pieces, so the result is always nonempty. -/
def splitOnChar (sep : Char) : List Char → List (List Char)
  | [] => [[]]
  | c :: rest =>
    match splitOnChar sep rest with
    | [] => [[c]]
    | g :: gs => if c = sep then [] :: g :: gs else (c :: g) :: gs

/-- Python `" ".join(pieces)` on character lists. -/
def joinSpace : List (List Char) → List Char
  | [] => []
  | [g] => g
  | g :: g' :: gs => g ++ ' ' :: joinSpace (g' :: gs)

/-- Python `s.split()` (no separator): split on whitespace runs,
discarding empty pieces. -/
def splitWs (l : List Char) : List (List Char) :=
  ((splitOnChar ' ' (l.map (fun c => if isSpaceChar c then ' ' else c))).filter
    (fun g => !g.isEmpty))

/-- Python `str.endswith`. -/
def endsWithList (suf l : List Char) : Bool :=
  suf.isSuffixOf l

end Py

/-!
A Brzozowski-derivative regular-expression matcher, used to embed
`URLValidator.url_pattern`.  Character classes are a small closed enum
so that smart constructors can simplify derivatives.  `re.match` with a
`$`-anchored pattern on an already-stripped string is whole-string
language membership, which is what `reMatch` decides.
-/

namespace Rx

/-- Character classes occurring in `url_pattern` (compiled with
`re.IGNORECASE`, hence the case-insensitive literal class). -/
inductive CC where
  | lit (c : Char)      -- a literal character such as ':' or '.'
  | litCI (c : Char)    -- a cased literal under IGNORECASE ('h','t','p','s',…)
  | alnum               -- [A-Z0-9] under IGNORECASE
  | alnumDash           -- [A-Z0-9-] under IGNORECASE
  | alpha               -- [A-Z] under IGNORECASE
  | digit               -- \d (ASCII inputs)
  | nonspace            -- \S (ASCII inputs)
  | slashQuery          -- [/?]
deriving DecidableEq

def isAsciiLetter (c : Char) : Bool :=
  ('A' ≤ c && c ≤ 'Z') || ('a' ≤ c && c ≤ 'z')

def isAsciiDigit (c : Char) : Bool := '0' ≤ c && c ≤ '9'

def CC.test : CC → Char → Bool
  | .lit c, x => x = c
  | .litCI c, x => Py.lowerChar x = Py.lowerChar c
  | .alnum, x => isAsciiLetter x || isAsciiDigit x
  | .alnumDash, x => isAsciiLetter x || isAsciiDigit x || x = '-'
  | .alpha, x => isAsciiLetter x
  | .digit, x => isAsciiDigit x
  | .nonspace, x => !Py.isSpaceChar x
  | .slashQuery, x => x = '/' || x = '?'

/-- Regular expressions: empty language, empty string, a character
class, concatenation, alternation, Kleene star, and the bounded
repetition `r{lo,hi}`. -/
inductive RE where
  | emp
  | eps
  | cls (c : CC)
  | cat (a b : RE)
  | alt (a b : RE)
  | star (a : RE)
  | rep (a : RE) (lo hi : Nat)
deriving DecidableEq

def nullable : RE → Bool
  | .emp => false
  | .eps => true
  | .cls _ => false
  | .cat a b => nullable a && nullable b
  | .alt a b => nullable a || nullable b
  | .star _ => true
  | .rep a lo _ => lo = 0 || nullable a

/-- Smart concatenation. -/
def scat (a b : RE) : RE :=
  match a, b with
  | .emp, _ => .emp
  | _, .emp => .emp
  | .eps, b => b
  | a, .eps => a
  | a, b => .cat a b

/-- Smart alternation. -/
def salt (a b : RE) : RE :=
  match a, b with
  | .emp, b => b
  | a, .emp => a
  | a, b => if a = b then a else .alt a b

/-- Brzozowski derivative with respect to one character. -/
def deriv (c : Char) : RE → RE
  | .emp => .emp
  | .eps => .emp
  | .cls k => if k.test c then .eps else .emp
  | .cat a b =>
    if nullable a then salt (scat (deriv c a) b) (deriv c b)
    else scat (deriv c a) b
  | .alt a b => salt (deriv c a) (deriv c b)
  | .star a => scat (deriv c a) (.star a)
  | .rep a lo hi =>
    if hi = 0 then .emp
    else scat (deriv c a) (.rep a (lo - 1) (hi - 1))

/-- Whole-string matching by iterated derivatives. -/
def reMatch (r : RE) (s : List Char) : Bool :=
  nullable (s.foldl (fun r c => deriv c r) r)

/-- `r+`. -/
def plus (r : RE) : RE := .cat r (.star r)

/-- `r?`. -/
def opt (r : RE) : RE := .rep r 0 1

/-- Concatenation of a list of regexes. -/
def cats : List RE → RE
  | [] => .eps
  | [r] => r
  | r :: rs => .cat r (cats rs)

/-- A case-insensitive literal string. -/
def strCI (s : String) : RE := cats (s.data.map (fun c => .cls (.litCI c)))

end Rx

namespace URLValidator

open Rx

/-- One `(?:[A-Z0-9](?:[A-Z0-9-]{0,61}[A-Z0-9])?\.)` domain label of
`url_pattern`. -/
def labelRE : RE :=
  cats [.cls .alnum,
        opt (cats [.rep (.cls .alnumDash) 0 61, .cls .alnum]),
        .cls (.lit '.')]

/-- The domain alternative `(?:…\.)+[A-Z]{2,6}\.?` of `url_pattern`. -/
def domainRE : RE :=
  cats [plus labelRE, .rep (.cls .alpha) 2 6, opt (.cls (.lit '.'))]

/-- The dotted-quad alternative `\d{1,3}\.\d{1,3}\.\d{1,3}\.\d{1,3}`. -/
def ipRE : RE :=
  cats [.rep (.cls .digit) 1 3, .cls (.lit '.'),
        .rep (.cls .digit) 1 3, .cls (.lit '.'),
        .rep (.cls .digit) 1 3, .cls (.lit '.'),
        .rep (.cls .digit) 1 3]

/-- `URLValidator.url_pattern` (src/validators.py lines 34-42):
`^https?://(?:domain|localhost|ip)(?::\d+)?(?:/?|[/?]\S+)$` under
`re.IGNORECASE`. -/
def url_pattern : RE :=
  cats [strCI "http", opt (.cls (.litCI 's')),
        .cls (.lit ':'), .cls (.lit '/'), .cls (.lit '/'),
        .alt domainRE (.alt (strCI "localhost") ipRE),
        opt (cats [.cls (.lit ':'), plus (.cls .digit)]),
        .alt (opt (.cls (.lit '/')))
             (cats [.cls .slashQuery, plus (.cls .nonspace)])]

end URLValidator

namespace Py

/-- The components of `urllib.parse.urlparse` used by the pipeline. -/
structure UrlParts where
  scheme : String
  netloc : String
  path : String
deriving DecidableEq, Repr

/-- CPython `urlsplit` scheme characters: letters, digits, `+`, `-`, `.`. -/
def isSchemeChar (c : Char) : Bool :=
  Rx.isAsciiLetter c || Rx.isAsciiDigit c || c = '+' || c = '-' || c = '.'

/-- Split `url` at the first `:` when the prefix is a well-formed scheme
(leading ASCII letter, scheme characters throughout), as CPython's
`urlsplit` does; otherwise there is no scheme. -/
def splitScheme (l : List Char) : List Char × List Char :=
  match (l.findIdx? (· = ':')) with
  | none => ([], l)
  | some i =>
    if 0 < i ∧ (l.take i).all isSchemeChar ∧ isAsciiLetterHead l then
      ((l.take i).map lowerChar, l.drop (i + 1))
    else ([], l)
where
  isAsciiLetterHead : List Char → Bool
    | [] => false
    | c :: _ => Rx.isAsciiLetter c

/-- `urllib.parse.urlparse`, embedded for the scheme/netloc/path fields
(CPython `urlsplit`): optional scheme, `//`-netloc up to the first
`/?#` with the `Invalid IPv6 URL` check for unbalanced brackets, then
the fragment split at `#` and the query split at `?`. -/
def urlparse (url : String) : Except String UrlParts :=
  let (scheme, rest) := splitScheme url.data
  let (netloc, rest) :=
    if ['/', '/'].isPrefixOf rest then
      ((rest.drop 2).takeWhile (fun c => ¬ (c = '/' ∨ c = '?' ∨ c = '#')),
       (rest.drop 2).dropWhile (fun c => ¬ (c = '/' ∨ c = '?' ∨ c = '#')))
    else ([], rest)
  if (netloc.contains '[' && !netloc.contains ']') ||
     (netloc.contains ']' && !netloc.contains '[') then
    .error "Invalid IPv6 URL"
  else
    let rest := rest.takeWhile (· ≠ '#')
    let path := rest.takeWhile (· ≠ '?')
    .ok ⟨String.mk scheme, String.mk netloc, String.mk path⟩

end Py

namespace URLValidator

/-- `URLValidator.MAX_URL_LENGTH`. -/
def MAX_URL_LENGTH : Nat := 2048

/-- `URLValidator.blocked_domains`. -/
def blocked_domains : List String :=
  ["facebook.com", "instagram.com", "twitter.com", "linkedin.com",
   "youtube.com", "tiktok.com", "pinterest.com", "snapchat.com"]

/-- `URLValidator._has_suspicious_patterns`: the four literal patterns
are substring searches, the three `\.xxx$` patterns are suffix tests,
all on the lowercased URL. -/
def has_suspicious_patterns (url : String) : Bool :=
  let l := (Py.lower url)
  Py.containsSub "login" l || Py.containsSub "auth" l ||
  Py.containsSub "admin" l || Py.containsSub "private" l ||
  Py.endsWithList ".exe".data l.data || Py.endsWithList ".zip".data l.data ||
  Py.endsWithList ".pdf".data l.data

/-- Normalize a (lowercased) host by stripping one leading `www.`. -/
def stripWww (domain : String) : String :=
  if "www.".data.isPrefixOf domain.data then String.mk (domain.data.drop 4)
  else domain

/-- Is the normalized host equal to, or a subdomain of, a blocked
domain? -/
def isBlocked (domain : String) : Bool :=
  blocked_domains.any (fun b =>
    domain = b || Py.endsWithList ("." ++ b).data domain.data)

/-- The `try` block of `URLValidator.validate` (src/validators.py
lines 67-93), applied to the already-stripped URL: parse, check the
scheme, check the blocklist, check suspicious patterns; a parsing
exception is converted into `(False, "URL parsing error: <detail>")`
by the `except` clause, embedded as the `Except.error` match arm. -/
def validateParsed (url : String) : Bool × String :=
  match Py.urlparse url with
  | .error e => (false, "URL parsing error: " ++ e)
  | .ok parsed =>
    if ¬ (parsed.scheme = "http" ∨ parsed.scheme = "https") then
      (false, "Only HTTP and HTTPS URLs are supported")
    else
      let domain := stripWww (Py.lower parsed.netloc)
      if isBlocked domain then
        (false, "Domain " ++ parsed.netloc ++ " is blocked for scraping")
      else if has_suspicious_patterns url then
        (false, "URL contains suspicious patterns")
      else
        (true, "URL is valid for scraping")

/-- `URLValidator.validate` on an actual string argument (the
non-string case of the Python signature is handled by `validateInput`
below).  Mirrors src/validators.py lines 44-93 branch for branch. -/
def validate (url : String) : Bool × String :=
  if url = "" then (false, "URL must be a non-empty string")
  else
    let url := Py.strip url
    if MAX_URL_LENGTH < url.length then
      (false, "URL exceeds maximum allowed length")
    else if ¬ Rx.reMatch url_pattern url.data then
      (false, "Invalid URL format")
    else
      validateParsed url

/-- A Python argument to `validate`: a string, or a non-string value
(the code treats every non-string alike). -/
inductive UrlInput where
  | str (s : String)
  | nonstr
deriving DecidableEq

/-- `URLValidator.validate` including the
`not url or not isinstance(url, str)` guard. -/
def validateInput : UrlInput → Bool × String
  | .nonstr => (false, "URL must be a non-empty string")
  | .str s => validate s

end URLValidator

namespace ContentCategorizer

/-- `ContentCategorizer.category_patterns` (src/categorizer.py lines
20-101), in insertion (taxonomy) order.  Every pattern is a regex-free
literal, so `re.search` is substring search and `re.findall` counts
non-overlapping occurrences. -/
def category_patterns : List (String × List String) :=
  [("ecommerce", ["shop", "store", "cart", "buy", "product", "amazon",
                  "ebay", "etsy", "alibaba"]),
   ("news", ["news", "article", "blog", "post", "story", "cnn", "bbc",
             "reuters", "nytimes"]),
   ("education", ["edu", "learn", "course", "tutorial", "academic",
                  "university", "college", "school"]),
   ("social", ["social", "community", "forum", "discussion", "reddit",
               "stackoverflow", "quora", "facebook", "twitter",
               "instagram", "linkedin"]),
   ("business", ["corp", "company", "business", "enterprise",
                 "corporate", "services"]),
   ("technology", ["tech", "software", "app", "api", "github",
                   "developer", "programming", "code"]),
   ("health", ["health", "medical", "doctor", "hospital", "medicine",
               "wellness"]),
   ("finance", ["bank", "finance", "money", "investment", "crypto",
                "trading", "stock"])]

/-- Does any of the category's patterns match (substring) the given
component? -/
def anyPatternMatches (pats : List String) (component : String) : Bool :=
  pats.any (fun pat => Py.containsSub pat component)

/-- The first category (in taxonomy order) with a pattern match against
the component: one pass of the loops at src/categorizer.py lines
127-134. -/
def firstMatch (component : String) : Option (String × List String) :=
  category_patterns.find? (fun cp => anyPatternMatches cp.2 component)

/-- The `domain`/`path` pair that `categorize` analyzes: the lowercased
URL is parsed; on a parsing exception the whole lowercased string is
the domain and the path is empty. -/
def urlComponents (url : String) : String × String :=
  match Py.urlparse (Py.lower url) with
  | .ok parsed => (parsed.netloc, parsed.path)
  | .error _ => (Py.lower url, "")

/-- The per-category total occurrence counts of
`ContentCategorizer._analyze_content`: categories in taxonomy order
paired with `sum(len(re.findall(pattern, content_lower)))`, keeping
only positive scores (insertion order of `category_scores`). -/
def contentScores (content : String) : List (String × Nat) :=
  category_patterns.filterMap (fun cp =>
    let score := (cp.2.map (fun pat =>
      Py.countOcc pat.data (Py.lower content).data)).sum
    if 0 < score then some (cp.1, score) else none)

/-- Python `max(keys, key=score)` over the scores dict: iterate in
insertion order, replacing the current best only on a strictly greater
score, so the first maximal element wins. -/
def pyMaxAux : (String × Nat) → List (String × Nat) → (String × Nat)
  | p, [] => p
  | p, q :: rest => if p.2 < q.2 then pyMaxAux q rest else pyMaxAux p rest

/-- `ContentCategorizer._analyze_content` (src/categorizer.py lines
144-171). -/
def analyze_content (content : String) : String :=
  if content = "" then "unknown"
  else
    match contentScores content with
    | [] => "unknown"
    | p :: rest => (pyMaxAux p rest).1

/-- `ContentCategorizer.categorize` (src/categorizer.py lines
103-142): domain pass, then path pass, then (for truthy content) the
content pass, then `"general"`. -/
def categorize (url : String) (content : Option String) : String :=
  if url = "" then "unknown"
  else
    let comps := urlComponents url
    match firstMatch comps.1 with
    | some cp => cp.1
    | none =>
      match firstMatch comps.2 with
      | some cp => cp.1
      | none =>
        match content with
        | none => "general"
        | some c =>
          if c = "" then "general"
          else
            let cc := analyze_content c
            if cc ≠ "unknown" then cc else "general"

end ContentCategorizer

namespace ContentProcessor

/-- The line-filtering and whitespace-collapsing part of
`ContentProcessor._clean_text` (src/content_processor.py lines
162-181), before the length cap: split into lines, strip each, keep
lines that are nonempty, longer than 2 characters and not
whitespace-only, join with single spaces, then collapse all whitespace
runs via `" ".join(text.split())`. -/
def cleanedPre (text : List Char) : List Char :=
  let lines := (Py.splitOnChar '\n' text).map Py.stripList
  let kept := lines.filter (fun l =>
    !l.isEmpty && decide (2 < l.length) && !Py.isSpaceStr l)
  Py.joinSpace (Py.splitWs (Py.joinSpace kept))

/-- `ContentProcessor._clean_text` (src/content_processor.py lines
152-187), including the empty-input guard and the 10,000-character cap
with `"..."` marker. -/
def clean_text (text : String) : String :=
  if text = "" then ""
  else
    let ct := cleanedPre text.data
    if 10000 < ct.length then String.mk (ct.take 10000 ++ "...".data)
    else String.mk ct

end ContentProcessor

/-!
HTML documents, as seen through the BeautifulSoup API calls the two
extractors make: a tree of elements (tag name, attributes, children)
and text nodes.  `find`/`find_all` enumerate elements in document
order (pre-order), and `get_text(strip=True)` joins the stripped
non-empty descendant strings.  Attribute values are strings (none of
the attributes the extractors read is a multi-valued one).
-/

inductive HNode where
  | elem (tag : String) (attrs : List (String × String)) (children : List HNode)
  | text (s : String)

/-- A parsed document: the soup's top-level nodes. -/
def Soup := List HNode

mutual
/-- All elements of a tree in document (pre-order) order. -/
def nodeElems : HNode → List HNode
  | .text _ => []
  | .elem t a c => .elem t a c :: listElems c
/-- All elements of a forest in document order. -/
def listElems : List HNode → List HNode
  | [] => []
  | n :: rest => nodeElems n ++ listElems rest
end


mutual
/-- The descendant strings of a node, in document order. -/
def nodeStrings : HNode → List String
  | .text s => [s]
  | .elem _ _ c => listStrings c
/-- The descendant strings of a forest, in document order. -/
def listStrings : List HNode → List String
  | [] => []
  | n :: rest => nodeStrings n ++ listStrings rest
end

/-- The tag name of an element (`""` for a text node). -/
def HNode.tag : HNode → String
  | .elem t _ _ => t
  | .text _ => ""

/-- `tag.get(key)`: the attribute value, if present. -/
def HNode.getAttr : HNode → String → Option String
  | .elem _ attrs _, k => (attrs.find? (fun a => a.1 = k)).map (·.2)
  | .text _, _ => none

/-- `tag.has_attr`/`attrs={key: True}` filters. -/
def HNode.hasAttr (n : HNode) (k : String) : Bool :=
  (n.getAttr k).isSome

/-- `tag.get_text(strip=True)`: the stripped non-empty descendant
strings joined with the empty separator. -/
def HNode.getTextStrip (n : HNode) : String :=
  String.join (((nodeStrings n).map Py.strip).filter (fun s => s ≠ ""))

/-- `soup.find(pred)`: the first element, in document order, satisfying
the filter. -/
def Soup.find (soup : Soup) (p : HNode → Bool) : Option HNode :=
  (listElems soup).find? p

/-- `soup.find_all(pred)`: every element, in document order, satisfying
the filter. -/
def Soup.findAll (soup : Soup) (p : HNode → Bool) : List HNode :=
  (listElems soup).filter p

namespace ContentProcessor

/-- `ContentProcessor._extract_title` (src/content_processor.py lines
62-93): `<title>` text, else first `<h1>` text, else `og:title` meta
content, else `"No title found"`.  The `og:title` branch returns the
stripped content without an emptiness check, exactly as the source
does. -/
def extract_title (soup : Soup) : String :=
  match soup.find (fun n => n.tag = "title") with
  | some titleTag =>
    if titleTag.getTextStrip ≠ "" then titleTag.getTextStrip
    else extractTitleH1 soup
  | none => extractTitleH1 soup
where
  extractTitleH1 (soup : Soup) : String :=
    match soup.find (fun n => n.tag = "h1") with
    | some h1Tag =>
      if h1Tag.getTextStrip ≠ "" then h1Tag.getTextStrip
      else extractTitleOg soup
    | none => extractTitleOg soup
  extractTitleOg (soup : Soup) : String :=
    match soup.find (fun n => n.tag = "meta" && n.getAttr "property" = some "og:title") with
    | some ogTag =>
      match ogTag.getAttr "content" with
      | some content => Py.strip content
      | none => "No title found"
    | none => "No title found"

end ContentProcessor

namespace MetadataExtractor

/-- `MetadataExtractor._extract_title` (src/metadata_extractor.py lines
48-75): `<title>` text, else `og:title` meta content (when truthy),
else `twitter:title` meta content (when truthy), else first `<h1>`
text, else `"No title found"`. -/
def extract_title (soup : Soup) : String :=
  match soup.find (fun n => n.tag = "title") with
  | some titleTag =>
    if titleTag.getTextStrip ≠ "" then titleTag.getTextStrip
    else extractTitleOg soup
  | none => extractTitleOg soup
where
  extractTitleOg (soup : Soup) : String :=
    match soup.find (fun n => n.tag = "meta" && n.getAttr "property" = some "og:title") with
    | some ogTag =>
      match ogTag.getAttr "content" with
      | some content => if content ≠ "" then Py.strip content else extractTitleTw soup
      | none => extractTitleTw soup
    | none => extractTitleTw soup
  extractTitleTw (soup : Soup) : String :=
    match soup.find (fun n => n.tag = "meta" && n.getAttr "name" = some "twitter:title") with
    | some twTag =>
      match twTag.getAttr "content" with
      | some content => if content ≠ "" then Py.strip content else extractTitleH1 soup
      | none => extractTitleH1 soup
    | none => extractTitleH1 soup
  extractTitleH1 (soup : Soup) : String :=
    match soup.find (fun n => n.tag = "h1") with
    | some h1Tag =>
      if h1Tag.getTextStrip ≠ "" then h1Tag.getTextStrip
      else "No title found"
    | none => "No title found"

/-- One entry of the `links` metadata list. -/
structure LinkInfo where
  url : String
  text : String
  title : String
deriving DecidableEq

/-- One entry of the `images` metadata list. -/
structure ImageInfo where
  src : String
  alt : String
  title : String
deriving DecidableEq

/-- `MetadataExtractor._extract_links` (src/metadata_extractor.py lines
172-187): every `<a href=…>` in document order as `{url, text, title}`,
then `links[:50]`. -/
def extract_links (soup : Soup) : List LinkInfo :=
  ((soup.findAll (fun n => n.tag = "a" && n.hasAttr "href")).filterMap
    (fun link => (link.getAttr "href").map (fun href =>
      ⟨href, link.getTextStrip, (link.getAttr "title").getD ""⟩))).take 50

/-- `MetadataExtractor._extract_images` (src/metadata_extractor.py
lines 189-206): every `<img src=…>` in document order as
`{src, alt, title}`, then `images[:20]`. -/
def extract_images (soup : Soup) : List ImageInfo :=
  ((soup.findAll (fun n => n.tag = "img" && n.hasAttr "src")).filterMap
    (fun img => (img.getAttr "src").map (fun src =>
      ⟨src, (img.getAttr "alt").getD "", (img.getAttr "title").getD ""⟩))).take 20

/-- The microdata half of `MetadataExtractor._extract_schema_org`
(src/metadata_extractor.py lines 222-248): the first 5 elements
carrying an `itemtype`, each kept only when it yields a nonempty
property mapping from its `itemprop` descendants (`content` attribute
first, else nonempty text).  The JSON-LD half of `schema_data` only
appends independently parsed script blocks and is not modelled. -/
def microdataItems (soup : Soup) : List (String × List (String × String)) :=
  ((soup.findAll (fun n => n.hasAttr "itemtype")).take 5).filterMap
    (fun item => (item.getAttr "itemtype").map (fun itemtype =>
      (itemtype, itemProps item))) |>.filter (fun it => !it.2.isEmpty)
where
  itemProps (item : HNode) : List (String × String) :=
    (itemChildrenElems item).filter (fun p => p.hasAttr "itemprop") |>.filterMap
      (fun prop => (prop.getAttr "itemprop").bind (fun name =>
        match prop.getAttr "content" with
        | some content => some (name, content)
        | none =>
          if prop.getTextStrip ≠ "" then some (name, prop.getTextStrip)
          else none))
  itemChildrenElems (item : HNode) : List HNode :=
    match item with
    | .elem _ _ c => listElems c
    | .text _ => []

end MetadataExtractor

namespace Models

/-- A metadata mapping value is opaque to the model. -/
def MetaMap := List (String × String)

/-- `ScrapedData` (src/models.py lines 13-31) after `__post_init__`
has run.  `timestamp`/`metadata` keep the `Optional` type of the
dataclass fields; `datetime` is embedded as an abstract instant
(`Nat`). -/
structure ScrapedData where
  url : String
  title : Option String
  content : Option String
  category : Option String
  metadata : Option MetaMap
  timestamp : Option Nat
  status_code : Int
  quality_score : Float

/-- Constructing a `ScrapedData(...)`: the dataclass stores the
supplied arguments and then `__post_init__` replaces a `None`
timestamp with `datetime.now()` (the creation instant, passed here as
`now`) and a `None` metadata with `{}`. -/
def mkScrapedData (now : Nat) (url : String) (title content category : Option String)
    (metadata : Option MetaMap) (timestamp : Option Nat)
    (status_code : Int) (quality_score : Float) : ScrapedData :=
  { url := url, title := title, content := content, category := category,
    metadata := some (metadata.getD []),
    timestamp := some (timestamp.getD now),
    status_code := status_code, quality_score := quality_score }

end Models

namespace ContentCategorizer

/-- Specification-side maximum of the scores in a score list. -/
def listMaxSnd (l : List (String × Nat)) : Nat :=
  l.foldr (fun p m => max p.2 m) 0

/-- Specification-side description of Python's
`max(keys, key=score)` over an insertion-ordered dict: the first entry
whose score attains the maximum. -/
def firstMaxEntry (l : List (String × Nat)) : Option (String × Nat) :=
  l.find? (fun p => listMaxSnd l ≤ p.2)

end ContentCategorizer

namespace Examples

/-- A document with a `<h1>` and an `og:title` meta but no `<title>`
tag (the configuration claim C3 reasons about). -/
def titleDoc : Soup :=
  [.elem "html" []
    [.elem "head" []
      [.elem "meta" [("property", "og:title"), ("content", "OG Title")] []],
     .elem "body" []
      [.elem "h1" [] [.text "Heading"]]]]

/-- A document with 100 href-bearing anchors and 50 src-bearing
images. -/
def capsDoc : Soup :=
  [.elem "body" []
    ((List.range 100).map (fun i =>
        .elem "a" [("href", toString i)] [.text "link"]) ++
     (List.range 50).map (fun i =>
        .elem "img" [("src", toString i)] []))]

/-- A 15,000-character single-line input. -/
def longLine : String := String.mk (List.replicate 15000 'a')

end Examples

/-!
Helper lemmas, then one theorem per claim (with a closed witness for
every theorem that carries a hypothesis).
-/

namespace Py

theorem isSubstr_append_right (pat b : List Char) (a : List Char)
    (h : isSubstr pat b = true) : isSubstr pat (a ++ b) = true := by
  induction a with
  | nil => simpa using h
  | cons c rest ih => simp [isSubstr, ih]

end Py

/-- A string starting with a nonempty literal is nonempty. -/
theorem string_append_ne_empty (a b : String) (h : a.data ≠ []) :
    a ++ b ≠ "" := by
  intro hc
  apply h
  have : (a ++ b).data = [] := by rw [hc]
  rw [String.data_append] at this
  exact List.append_eq_nil.mp this |>.1

/-- C10: every `ScrapedData` built by the constructor has a non-null
timestamp and a non-null metadata mapping; an absent timestamp becomes
the creation instant and absent metadata becomes the empty mapping. -/
theorem scrapedData_post_init_defaults :
    (∀ now url t c cat md ts sc qs,
      (Models.mkScrapedData now url t c cat md ts sc qs).timestamp.isSome = true
      ∧ (Models.mkScrapedData now url t c cat md ts sc qs).metadata.isSome = true)
    ∧ (∀ now url t c cat sc qs,
      (Models.mkScrapedData now url t c cat none none sc qs).timestamp = some now
      ∧ (Models.mkScrapedData now url t c cat none none sc qs).metadata = some []) := by
  refine ⟨fun now url t c cat md ts sc qs => ⟨rfl, rfl⟩,
          fun now url t c cat sc qs => ⟨rfl, rfl⟩⟩

/-- C9: the empty URL is categorized `"unknown"` whatever the content
argument is, and a URL whose domain and path match no category, with no
content supplied, is categorized `"general"`; in particular
`categorize("https://example.com", None) = "general"`. -/
theorem categorize_degenerate :
    (∀ content, ContentCategorizer.categorize "" content = "unknown")
    ∧ (∀ url, url ≠ "" →
        ContentCategorizer.firstMatch (ContentCategorizer.urlComponents url).1 = none →
        ContentCategorizer.firstMatch (ContentCategorizer.urlComponents url).2 = none →
        ContentCategorizer.categorize url none = "general")
    ∧ ContentCategorizer.categorize "https://example.com" none = "general" := by
  refine ⟨fun content => rfl, fun url hne h1 h2 => ?_, by decide⟩
  simp [ContentCategorizer.categorize, hne, h1, h2]

/-- Witness for the hypotheses of `categorize_degenerate`. -/
theorem categorize_degenerate_witness :
    ContentCategorizer.categorize "https://unmatched.example" none = "general" :=
  categorize_degenerate.2.1 "https://unmatched.example" (by decide) (by decide) (by decide)

/-- C1: whenever the domain pass — the first category in taxonomy
order with a pattern match against the URL's domain — selects a
category, `categorize` returns it for every content argument (and thus
for every path, which is part of the URL); in particular both quoted
examples categorize as `"ecommerce"`. -/
theorem categorize_domain_precedence :
    (∀ url content cat pats, url ≠ "" →
      ContentCategorizer.firstMatch (ContentCategorizer.urlComponents url).1 = some (cat, pats) →
      ContentCategorizer.categorize url content = cat)
    ∧ ContentCategorizer.categorize "https://shop.example.com"
        (some "latest news articles and breaking stories") = "ecommerce"
    ∧ ContentCategorizer.categorize "https://shop.example.com/news/article" none = "ecommerce" := by
  refine ⟨fun url content cat pats hne hdom => ?_, by decide, by decide⟩
  simp [ContentCategorizer.categorize, hne, hdom]

/-- Witness for the hypotheses of `categorize_domain_precedence`:
a domain matching `"store"` (ecommerce) with content full of news
keywords. -/
theorem categorize_domain_precedence_witness :
    ContentCategorizer.categorize "https://store.example.org" (some "news article blog") = "ecommerce" :=
  categorize_domain_precedence.1 "https://store.example.org" (some "news article blog")
    "ecommerce" ["shop", "store", "cart", "buy", "product", "amazon", "ebay", "etsy", "alibaba"]
    (by decide) (by decide)

/-- C7: the metadata caps are hard limits — at most 50 links, 20
images and 5 microdata items for every document — and the 100-link,
50-image document yields exactly 50 links and 20 images. -/
theorem metadata_caps :
    (∀ soup : Soup,
      (MetadataExtractor.extract_links soup).length ≤ 50
      ∧ (MetadataExtractor.extract_images soup).length ≤ 20
      ∧ (MetadataExtractor.microdataItems soup).length ≤ 5)
    ∧ (MetadataExtractor.extract_links Examples.capsDoc).length = 50
    ∧ (MetadataExtractor.extract_images Examples.capsDoc).length = 20 := by
  refine ⟨fun soup => ⟨?_, ?_, ?_⟩, by decide, by decide⟩
  · exact le_trans (List.length_take_le _ _) (le_refl _)
  · exact le_trans (List.length_take_le _ _) (le_refl _)
  · calc (MetadataExtractor.microdataItems soup).length
        ≤ (((Soup.findAll soup (fun n => n.hasAttr "itemtype")).take 5).filterMap _).length :=
          List.length_filter_le _ _
      _ ≤ ((Soup.findAll soup (fun n => n.hasAttr "itemtype")).take 5).length :=
          List.length_filterMap_le _ _
      _ ≤ 5 := List.length_take_le _ _

/-- C3 counterexample: on a document with a non-empty `<h1>` and an
`og:title` meta but no `<title>` tag, the Metadata Extractor returns
the `og:title` content, not the `<h1>` text as the claim asserts. -/
theorem metadata_title_counterexample :
    MetadataExtractor.extract_title Examples.titleDoc = "OG Title"
    ∧ MetadataExtractor.extract_title Examples.titleDoc ≠ "Heading" := by
  exact ⟨by decide, by decide⟩

/-- C3 amended: the Metadata Extractor's cascade is `<title>` text,
then `og:title` meta content (when non-empty), then `twitter:title`
meta content (when non-empty), then first `<h1>` text, then
`"No title found"` — og/twitter come BEFORE h1, unlike the Content
Extractor's cascade — so a document with a non-empty `og:title` and no
usable `<title>` gets the stripped `og:title` content even when an
`<h1>` is present; on the same document the Content Extractor (whose
cascade tries h1 before og:title) returns the `<h1>` text. -/
theorem metadata_title_cascade :
    (∀ (soup : Soup) (og : HNode) (c : String),
      (∀ t, soup.find (fun n => n.tag = "title") = some t → t.getTextStrip = "") →
      soup.find (fun n => n.tag = "meta" && n.getAttr "property" = some "og:title") = some og →
      og.getAttr "content" = some c → c ≠ "" →
      MetadataExtractor.extract_title soup = Py.strip c)
    ∧ ContentProcessor.extract_title Examples.titleDoc = "Heading" := by
  refine ⟨fun soup og c htitle hog hc hne => ?_, by decide⟩
  unfold MetadataExtractor.extract_title
  unfold MetadataExtractor.extract_title.extractTitleOg
  cases hfind : soup.find (fun n => n.tag = "title") with
  | none => simp [hog, hc, hne]
  | some t => simp [htitle t hfind, hog, hc, hne]

/-- Witness for the hypotheses of `metadata_title_cascade`. -/
theorem metadata_title_cascade_witness :
    MetadataExtractor.extract_title Examples.titleDoc = Py.strip "OG Title" :=
  metadata_title_cascade.1 Examples.titleDoc
    (.elem "meta" [("property", "og:title"), ("content", "OG Title")] [])
    "OG Title"
    (fun t ht => Option.noConfusion (show (Option.none : Option HNode) = some t from ht))
    rfl rfl (by decide)

namespace Rx

theorem foldl_deriv_emp (s : List Char) :
    s.foldl (fun r c => deriv c r) RE.emp = RE.emp := by
  induction s with
  | nil => rfl
  | cons c rest ih => simpa [deriv] using ih

end Rx

/-- C4 counterexample: `validate` accepts a URL carrying a fragment
when the `#` follows a path — the `[/?]\S+` tail of `url_pattern`
matches `#` — so the claimed blanket rejection of fragments is false. -/
theorem fragment_counterexample :
    URLValidator.validate "https://example.com/path#frag" =
      (true, "URL is valid for scraping") := by decide

/-- C4 amended: the structural pattern rejects a fragment only when the
`#` follows the host (or port) directly: every stripped, length-bounded
URL beginning `https://example.com#` fails with
`"Invalid URL format"`, while a fragment after a path can be accepted,
as `"https://example.com/path#frag"` is. -/
theorem fragment_after_host_rejected :
    (∀ u : String, Py.strip u = u → u.length ≤ 2048 →
      "https://example.com#".data.isPrefixOf u.data = true →
      URLValidator.validate u = (false, "Invalid URL format"))
    ∧ URLValidator.validate "https://example.com/path#frag" =
        (true, "URL is valid for scraping") := by
  refine ⟨fun u hstrip hlen hpre => ?_, by decide⟩
  obtain ⟨rest, hrest⟩ := List.isPrefixOf_iff_prefix.mp hpre
  have hne : u ≠ "" := by
    intro h
    rw [h] at hrest
    simp at hrest
  have hmatch : Rx.reMatch URLValidator.url_pattern u.data = false := by
    rw [← hrest, Rx.reMatch, List.foldl_append]
    have hemp : "https://example.com#".data.foldl (fun r c => Rx.deriv c r)
        URLValidator.url_pattern = Rx.RE.emp := by decide
    rw [hemp, Rx.foldl_deriv_emp]
    rfl
  unfold URLValidator.validate
  rw [if_neg hne, hstrip]
  rw [if_neg (by unfold URLValidator.MAX_URL_LENGTH; omega :
    ¬ URLValidator.MAX_URL_LENGTH < u.length)]
  rw [if_pos (by simp [hmatch])]

/-- Witness for the hypotheses of `fragment_after_host_rejected`. -/
theorem fragment_after_host_rejected_witness :
    URLValidator.validate "https://example.com#fragment" =
      (false, "Invalid URL format") :=
  fragment_after_host_rejected.1 "https://example.com#fragment"
    (by decide) (by decide) (by decide)

/-- C5: a URL that passes the emptiness, length, pattern, parse and
scheme checks and whose host — lowercased, with one leading `www.`
stripped — equals or is a subdomain of a blocklisted domain is
rejected with a reason containing `"blocked"`; concretely,
`"https://FACEBOOK.com"` and `"https://x.facebook.com"` are rejected
with `"blocked"` in the reason, and the look-alike
`"https://facebookx.com"` is not blocked. -/
theorem validate_blocklist :
    (∀ (url : String) (p : Py.UrlParts), url ≠ "" →
      ¬ URLValidator.MAX_URL_LENGTH < (Py.strip url).length →
      Rx.reMatch URLValidator.url_pattern (Py.strip url).data = true →
      Py.urlparse (Py.strip url) = .ok p →
      (p.scheme = "http" ∨ p.scheme = "https") →
      URLValidator.isBlocked (URLValidator.stripWww (Py.lower p.netloc)) = true →
      URLValidator.validate url =
        (false, "Domain " ++ p.netloc ++ " is blocked for scraping")
      ∧ Py.containsSub "blocked"
          ("Domain " ++ p.netloc ++ " is blocked for scraping") = true)
    ∧ URLValidator.validate "https://FACEBOOK.com" =
        (false, "Domain FACEBOOK.com is blocked for scraping")
    ∧ URLValidator.validate "https://x.facebook.com" =
        (false, "Domain x.facebook.com is blocked for scraping")
    ∧ URLValidator.validate "https://facebookx.com" =
        (true, "URL is valid for scraping") := by
  refine ⟨fun url p hne hlen hmatch hparse hscheme hblocked => ⟨?_, ?_⟩,
    by decide, by decide, by decide⟩
  · unfold URLValidator.validate
    rw [if_neg hne, if_neg hlen, if_neg (by simp [hmatch])]
    unfold URLValidator.validateParsed
    rw [hparse]
    simp [hscheme, hblocked]
  · show Py.isSubstr "blocked".data ("Domain " ++ p.netloc ++ " is blocked for scraping").data = true
    rw [String.data_append, String.data_append]
    exact Py.isSubstr_append_right _ _ _ (by decide)

/-- Witness for the hypotheses of `validate_blocklist`. -/
theorem validate_blocklist_witness :
    URLValidator.validate "https://FACEBOOK.com" =
      (false, "Domain FACEBOOK.com is blocked for scraping")
    ∧ Py.containsSub "blocked"
        ("Domain " ++ "FACEBOOK.com" ++ " is blocked for scraping") = true :=
  validate_blocklist.1 "https://FACEBOOK.com" ⟨"https", "FACEBOOK.com", ""⟩
    (by decide) (by decide) (by decide) rfl (Or.inr rfl) (by decide)

/-- C8: `validate` is total — every input, string or not, yields a
`(is_valid, reason)` pair whose reason is non-empty, a non-string or
empty input yields `(false, "URL must be a non-empty string")`, and a
parsing exception inside the `try` block becomes
`(false, "URL parsing error: <detail>")`. -/
theorem validate_total :
    (∀ input, (URLValidator.validateInput input).2 ≠ "")
    ∧ URLValidator.validateInput .nonstr = (false, "URL must be a non-empty string")
    ∧ URLValidator.validateInput (.str "") = (false, "URL must be a non-empty string")
    ∧ (∀ url e, Py.urlparse url = .error e →
        URLValidator.validateParsed url = (false, "URL parsing error: " ++ e)) := by
  refine ⟨?_, rfl, rfl, fun url e h => by unfold URLValidator.validateParsed; rw [h]⟩
  intro input
  cases input with
  | nonstr => decide
  | str s =>
    show (URLValidator.validate s).2 ≠ ""
    unfold URLValidator.validate
    split
    · decide
    · dsimp only
      split
      · decide
      · split
        · decide
        · unfold URLValidator.validateParsed
          split
          · exact string_append_ne_empty _ _ (by decide)
          · split
            · decide
            · dsimp only
              split
              · apply string_append_ne_empty
                simp [String.data_append]
              · split
                · decide
                · decide

/-- Witness for the parsing-exception hypothesis of `validate_total`:
an unbalanced bracket in the netloc raises `Invalid IPv6 URL` inside
`urlparse`, which the `except` clause converts. -/
theorem validate_total_witness :
    URLValidator.validateParsed "http://[a" =
      (false, "URL parsing error: Invalid IPv6 URL") :=
  validate_total.2.2.2 "http://[a" "Invalid IPv6 URL" rfl

/-- C6: the cleaned output of the Content Extractor never exceeds
10,003 characters, and whenever the pre-truncation cleaned text
exceeds 10,000 characters the output is exactly its first 10,000
characters followed by `"..."`. -/
theorem clean_text_cap :
    (∀ text, (ContentProcessor.clean_text text).length ≤ 10003)
    ∧ (∀ text, 10000 < (ContentProcessor.cleanedPre text.data).length →
        ContentProcessor.clean_text text =
          String.mk ((ContentProcessor.cleanedPre text.data).take 10000 ++ "...".data)) := by
  constructor
  · intro text
    unfold ContentProcessor.clean_text
    split
    · decide
    · dsimp only
      split
      · rename_i hgt
        show ((ContentProcessor.cleanedPre text.data).take 10000 ++ "...".data).length ≤ 10003
        rw [List.length_append, List.length_take]
        have hdots : ("...".data).length = 3 := rfl
        omega
      · rename_i hle
        show (ContentProcessor.cleanedPre text.data).length ≤ 10003
        omega
  · intro text h
    have hne : text ≠ "" := by
      intro hc
      rw [hc] at h
      simp [ContentProcessor.cleanedPre, Py.splitOnChar, Py.stripList,
        Py.joinSpace, Py.splitWs] at h
    unfold ContentProcessor.clean_text
    rw [if_neg hne]
    dsimp only
    rw [if_pos h]

namespace Py

theorem dropWhile_eq_self_of (p : Char → Bool) (l : List Char)
    (h : ∀ c ∈ l, p c = false) : List.dropWhile p l = l := by
  cases l with
  | nil => rfl
  | cons a rest => simp [List.dropWhile_cons, h a (by simp)]

theorem stripList_eq_self (l : List Char)
    (h : ∀ c ∈ l, isSpaceChar c = false) : stripList l = l := by
  unfold stripList
  rw [dropWhile_eq_self_of _ _ h]
  rw [dropWhile_eq_self_of _ _ (fun c hc => h c (List.mem_reverse.mp hc))]
  exact List.reverse_reverse l

theorem splitOnChar_eq_single (sep : Char) (l : List Char)
    (h : ∀ c ∈ l, c ≠ sep) : splitOnChar sep l = [l] := by
  induction l with
  | nil => rfl
  | cons c rest ih =>
    have hrest : splitOnChar sep rest = [rest] :=
      ih (fun x hx => h x (by simp [hx]))
    simp [splitOnChar, hrest, h c (by simp)]

theorem mapNoSpace_eq_self (l : List Char)
    (h : ∀ c ∈ l, isSpaceChar c = false) :
    l.map (fun c => if isSpaceChar c then ' ' else c) = l := by
  induction l with
  | nil => rfl
  | cons c rest ih =>
    simp only [List.map_cons, h c (by simp)]
    rw [ih (fun x hx => h x (by simp [hx]))]
    simp

theorem splitWs_single (l : List Char) (hne : l ≠ [])
    (h : ∀ c ∈ l, isSpaceChar c = false) : splitWs l = [l] := by
  unfold splitWs
  rw [mapNoSpace_eq_self l h]
  rw [splitOnChar_eq_single ' ' l (fun c hc hcontra => by
    have := h c hc
    rw [hcontra] at this
    simp [isSpaceChar] at this)]
  simp [hne]

end Py

/-- The text-cleaning pipeline leaves an all-`'a'` line unchanged. -/
theorem cleanedPre_replicate (n : Nat) (h : 2 < n) :
    ContentProcessor.cleanedPre (List.replicate n 'a') = List.replicate n 'a' := by
  have hmem : ∀ c ∈ List.replicate n 'a', c = 'a' :=
    fun c hc => List.eq_of_mem_replicate hc
  have hspace : ∀ c ∈ List.replicate n 'a', Py.isSpaceChar c = false :=
    fun c hc => by rw [hmem c hc]; decide
  have hne : List.replicate n 'a' ≠ [] := by
    simp [← List.length_pos]
    omega
  unfold ContentProcessor.cleanedPre
  rw [Py.splitOnChar_eq_single '\n' _ (fun c hc => by rw [hmem c hc]; decide)]
  rw [List.map_singleton, Py.stripList_eq_self _ hspace]
  have hfilter :
      [List.replicate n 'a'].filter (fun l =>
        !l.isEmpty && decide (2 < l.length) && !Py.isSpaceStr l) =
      [List.replicate n 'a'] := by
    have hall : (List.replicate n 'a').all Py.isSpaceChar = false := by
      rw [← Bool.not_eq_true, List.all_eq_true]
      intro hcontra
      have := hcontra 'a' (List.mem_replicate.mpr ⟨by omega, rfl⟩)
      simp [Py.isSpaceChar] at this
    have hn0 : n ≠ 0 := by omega
    simp [List.filter, hn0, Py.isSpaceStr, hall, List.length_replicate, h]
  dsimp only
  rw [hfilter]
  have hjoin : Py.joinSpace [List.replicate n 'a'] = List.replicate n 'a' := rfl
  rw [hjoin, Py.splitWs_single _ hne hspace]
  exact hjoin

/-- Witness for the truncation hypothesis of `clean_text_cap`, at the
15,000-character single-line input: the output is the first 10,000
characters plus `"..."` (length 10,003, ending in the marker). -/
theorem clean_text_cap_witness :
    10000 < (ContentProcessor.cleanedPre Examples.longLine.data).length
    ∧ ContentProcessor.clean_text Examples.longLine =
        String.mk ((ContentProcessor.cleanedPre Examples.longLine.data).take 10000
          ++ "...".data) := by
  have hdata : Examples.longLine.data = List.replicate 15000 'a' := rfl
  have hlen : 10000 < (ContentProcessor.cleanedPre Examples.longLine.data).length := by
    rw [hdata, cleanedPre_replicate 15000 (by omega), List.length_replicate]
    omega
  exact ⟨hlen, clean_text_cap.2 Examples.longLine hlen⟩

namespace ContentCategorizer

theorem listMaxSnd_cons (p : String × Nat) (l : List (String × Nat)) :
    listMaxSnd (p :: l) = max p.2 (listMaxSnd l) := rfl

theorem le_listMaxSnd (l : List (String × Nat)) (q : String × Nat)
    (hq : q ∈ l) : q.2 ≤ listMaxSnd l := by
  induction l with
  | nil => cases hq
  | cons a t ih =>
    rw [listMaxSnd_cons]
    rcases List.mem_cons.mp hq with h | h
    · rw [h]; exact le_max_left _ _
    · exact le_trans (ih h) (le_max_right _ _)

/-- Python's first-maximum `max` over an insertion-ordered dict agrees
with the specification `firstMaxEntry`: the returned key is the first
one whose score attains the maximum. -/
theorem pyMaxAux_eq_firstMax (rest : List (String × Nat)) :
    ∀ p, firstMaxEntry (p :: rest) = some (pyMaxAux p rest) := by
  induction rest with
  | nil =>
    intro p
    simp [firstMaxEntry, listMaxSnd, pyMaxAux, List.find?]
  | cons q t ih =>
    intro p
    by_cases hpq : p.2 < q.2
    · rw [show pyMaxAux p (q :: t) = pyMaxAux q t from by simp [pyMaxAux, hpq]]
      rw [← ih q]
      unfold firstMaxEntry
      have hqle : q.2 ≤ listMaxSnd (q :: t) := by
        rw [listMaxSnd_cons]; exact le_max_left _ _
      have hm : listMaxSnd (p :: q :: t) = listMaxSnd (q :: t) := by
        rw [listMaxSnd_cons (p := p)]
        exact Nat.max_eq_right (le_trans (le_of_lt hpq) hqle)
      rw [hm]
      exact List.find?_cons_of_neg _ (by simp; omega)
    · rw [show pyMaxAux p (q :: t) = pyMaxAux p t from by simp [pyMaxAux, hpq]]
      rw [← ih p]
      unfold firstMaxEntry
      have hm : listMaxSnd (p :: q :: t) = listMaxSnd (p :: t) := by
        rw [listMaxSnd_cons (p := p), listMaxSnd_cons (p := q),
            listMaxSnd_cons (p := p), ← Nat.max_assoc,
            Nat.max_eq_left (le_of_not_lt hpq)]
      rw [hm]
      by_cases hpm : listMaxSnd (p :: t) ≤ p.2
      · rw [List.find?_cons_of_pos _ (by simpa using hpm),
            List.find?_cons_of_pos _ (by simpa using hpm)]
      · rw [List.find?_cons_of_neg _ (by simpa using hpm),
            List.find?_cons_of_neg _ (by simp; omega),
            List.find?_cons_of_neg _ (by simpa using hpm)]

end ContentCategorizer

/-- C2: the content pass returns the first entry of the (taxonomy-
ordered, positive) score list that attains the maximal total
occurrence count — so two categories tied at the maximum resolve to
the taxonomy-earlier one — every scored category's count is bounded by
the returned one's, and when no category scores above zero the pass
returns `"unknown"`; concretely the `"shop news"` tie resolves to
`"ecommerce"`. -/
theorem analyze_content_scoring :
    (∀ content p,
      ContentCategorizer.firstMaxEntry (ContentCategorizer.contentScores content) = some p →
      ContentCategorizer.analyze_content content = p.1)
    ∧ (∀ content, ContentCategorizer.contentScores content = [] →
      ContentCategorizer.analyze_content content = "unknown")
    ∧ (∀ content p q,
      ContentCategorizer.firstMaxEntry (ContentCategorizer.contentScores content) = some p →
      q ∈ ContentCategorizer.contentScores content → q.2 ≤ p.2)
    ∧ ContentCategorizer.analyze_content "shop news" = "ecommerce" := by
  refine ⟨fun content p h => ?_, fun content h => ?_, fun content p q h hq => ?_, by decide⟩
  · by_cases hc : content = ""
    · rw [hc] at h
      rw [show ContentCategorizer.contentScores "" = [] from by decide] at h
      cases h
    · unfold ContentCategorizer.analyze_content
      rw [if_neg hc]
      cases hscores : ContentCategorizer.contentScores content with
      | nil => rw [hscores] at h; cases h
      | cons hd tl =>
        rw [hscores, ContentCategorizer.pyMaxAux_eq_firstMax tl hd] at h
        injection h with h
        rw [← h]
  · unfold ContentCategorizer.analyze_content
    by_cases hc : content = ""
    · rw [if_pos hc]
    · rw [if_neg hc, h]
  · have hpred := List.find?_some h
    have hple : ContentCategorizer.listMaxSnd (ContentCategorizer.contentScores content) ≤ p.2 := by
      simpa using hpred
    exact le_trans (ContentCategorizer.le_listMaxSnd _ q hq) hple

/-- Witness for the hypotheses of `analyze_content_scoring`: the
equal-and-maximal `"shop news"` tie and a no-signal content. -/
theorem analyze_content_scoring_witness :
    ContentCategorizer.analyze_content "shop news" = "ecommerce"
    ∧ ContentCategorizer.analyze_content "zzz qqq" = "unknown"
    ∧ ((("news", 1) : String × Nat)).2 ≤ ((("ecommerce", 1) : String × Nat)).2 :=
  ⟨analyze_content_scoring.1 "shop news" ("ecommerce", 1) (by decide),
   analyze_content_scoring.2.1 "zzz qqq" (by decide),
   analyze_content_scoring.2.2.1 "shop news" ("ecommerce", 1) ("news", 1)
     (by decide) (by decide)⟩
